import Mathlib

/-!
Verification development for `eval/evaluation_metric.py` of the
Multi-Modal-Brain-Segmentation repository.

The file shallowly embeds the metric computation engine: label volumes are
finite 3-D grids of natural-number label identifiers together with an index
to physical-coordinate transform; the SimpleITK filter calls of the source
(`BinaryThreshold`, `StatisticsImageFilter.GetSum`, `BinaryErode`,
`Subtract`, `GetArrayFromImage(...).flatten()`, `np.nonzero`) are modelled
as pure functions over those grids, and the scipy calls
(`scipy.spatial.distance.dice`, `scipy.spatial.KDTree` queries,
`np.percentile`) as rational-valued functions.  Python `None` entries are
modelled by `Option.none`; an uncaught Python exception is modelled by an
explicit error value of the corresponding result type.

The nearest-neighbour distance itself is computed by scipy in floating
point (a Euclidean norm); the development is parametric in the point-to-
point distance function `dist`, which every statement quantifies over.
-/

/-- A physical-space point (scipy works on coordinate triples). -/
abbrev Q3 : Type := ℚ × ℚ × ℚ

/-- A 3-D image in the sense of SimpleITK: grid sizes `nx × ny × nz`
(`x`/`y` are the in-plane axes, `z` the slice axis of the erosion kernel
`(1, 1, 0)`), a voxel value function, and the affine map realised by
`TransformIndexToPhysicalPoint`. -/
structure Image3 where
  nx : Nat
  ny : Nat
  nz : Nat
  val : Nat → Nat → Nat → Nat
  transform : Nat → Nat → Nat → Q3

/-- The `labels` dictionary of the source (insertion order preserved;
labels 9 and 10 are commented out there). -/
def labels : List (Nat × String) :=
  [(0, "Background"),
   (1, "Cortical gray matter"),
   (2, "Basal ganglia"),
   (3, "White matter"),
   (4, "White matter lesions"),
   (5, "Cerebrospinal fluid in the extracerebral space"),
   (6, "Ventricles"),
   (7, "Cerebellum"),
   (8, "Brain stem")]

/-- `labels.keys()`: the label identifiers in the dictionary's iteration
order. -/
def labelKeys : List Nat := labels.map Prod.fst

/-- All in-bounds voxel indices `(x, y, z)` of an image, enumerated in the
C order of the numpy array returned by `GetArrayFromImage` (axis order
`z, y, x`, so `z` is the outermost loop and `x` the innermost). -/
def allIndices (I : Image3) : List (Nat × Nat × Nat) :=
  (List.range I.nz).flatMap (fun z =>
    (List.range I.ny).flatMap (fun y =>
      (List.range I.nx).map (fun x => (x, y, z))))

/-- `sitk.GetArrayFromImage(image).flatten()`: the voxel values in C order. -/
def flattenImage (I : Image3) : List Nat :=
  (allIndices I).map (fun p => I.val p.1 p.2.1 p.2.2)

/-- `StatisticsImageFilter().Execute(image); GetSum()`: the sum of all voxel
values. -/
def imageSum (I : Image3) : Nat := (flattenImage I).sum

/-- `np.transpose(np.flipud(np.nonzero(array)))`: the `(x, y, z)` indices of
the nonzero voxels, in the C scan order of the array. -/
def nonzeroIndices (I : Image3) : List (Nat × Nat × Nat) :=
  (allIndices I).filter (fun p => I.val p.1 p.2.1 p.2.2 != 0)

/-- `sitk.BinaryThreshold(image, k, k, 1, 0)`: the binary mask of label `k`
(1 where the voxel value equals `k`, 0 elsewhere); the physical transform is
unchanged. -/
def binaryThreshold (I : Image3) (k : Nat) : Image3 :=
  { I with val := fun x y z => if I.val x y z = k then 1 else 0 }

/-- Boundary condition of `sitk.BinaryErode`: is the voxel at the (possibly
out-of-range) in-plane position `(x, y)` of slice `z` foreground?  The
filter's default `boundaryToForeground = true` treats out-of-image pixels
as foreground, so an object touching the image border is not eroded from
that side. -/
def fgAt (I : Image3) (x y : Int) (z : Nat) : Bool :=
  if 0 ≤ x ∧ x < (I.nx : Int) ∧ 0 ≤ y ∧ y < (I.ny : Int) then
    I.val x.toNat y.toNat z == 1
  else
    true

/-- `sitk.BinaryErode(image, (1, 1, 0))`: morphological erosion with the
default ball structuring element of radius (1, 1, 0), i.e. the in-plane
4-neighbourhood plus the centre, applied independently per slice (the
kernel is flat along `z`).  A voxel stays foreground iff it is foreground
and all four in-plane neighbours are foreground, with out-of-image
neighbours counting as foreground (the filter's default boundary
condition). -/
def binaryErode (I : Image3) : Image3 :=
  { I with val := fun x y z =>
      if I.val x y z = 1 ∧
          fgAt I ((x : Int) + 1) (y : Int) z ∧
          fgAt I ((x : Int) - 1) (y : Int) z ∧
          fgAt I (x : Int) ((y : Int) + 1) z ∧
          fgAt I (x : Int) ((y : Int) - 1) z then 1 else 0 }

/-- `sitk.Subtract(a, b)` on the 0/1 mask and its eroded image (the eroded
mask is contained in the mask, so natural subtraction is exact). -/
def subtractImg (A B : Image3) : Image3 :=
  { A with val := fun x y z => A.val x y z - B.val x y z }

/-- `np.where(arr == k, arr, 0)` on a flat array: keep the entries equal to
`k` (with their value `k`), zero out the rest.  Used by the array-based
metric variants. -/
def maskKeep (arr : List Nat) (k : Nat) : List Nat :=
  arr.map (fun v => if v = k then v else 0)

/-- `scipy.spatial.distance.dice(u, v)` for integer-valued 1-D arrays of a
common length.  For non-boolean dtypes scipy computes
`ntt = sum(u*v)`, `ntf = sum(u*(1-v))`, `nft = sum((1-u)*v)` and returns
`(ntf + nft) / (2*ntt + ntf + nft)`; the division raises
`ZeroDivisionError` when the denominator is zero, modelled by `none`. -/
def scipyDice (u v : List Nat) : Option ℚ :=
  let uq : List ℚ := u.map (fun a : Nat => (a : ℚ))
  let vq : List ℚ := v.map (fun a : Nat => (a : ℚ))
  let ntt : ℚ := (List.zipWith (fun a b => a * b) uq vq).sum
  let ntf : ℚ := (List.zipWith (fun a b => a * (1 - b)) uq vq).sum
  let nft : ℚ := (List.zipWith (fun a b => (1 - a) * b) uq vq).sum
  if 2 * ntt + ntf + nft = 0 then none
  else some ((ntf + nft) / (2 * ntt + ntf + nft))

/-- The loop body of `getDSC` at label `k`: `1.0 - scipy dice` of the two
flattened binary masks, with the `ZeroDivisionError` handler storing
`None`. -/
def getDSC_entry (testImage resultImage : Image3) (k : Nat) : Option ℚ :=
  (scipyDice (flattenImage (binaryThreshold testImage k))
             (flattenImage (binaryThreshold resultImage k))).map (fun d => 1 - d)

/-- `getDSC`: the per-label Dice mapping, one entry per key of `labels`, in
iteration order. -/
def getDSC (testImage resultImage : Image3) : List (Nat × Option ℚ) :=
  labelKeys.map (fun k => (k, getDSC_entry testImage resultImage k))

/-- The loop body of `get_dice_score` at label `k`: the same scipy dice on
the `np.where`-masked arrays (which keep the label value `k`, not 1), but
its `ZeroDivisionError` handler stores the number `0`, not `None`. -/
def get_dice_score_entry (lab2d pred2d : List Nat) (k : Nat) : Option ℚ :=
  match scipyDice (maskKeep lab2d k) (maskKeep pred2d k) with
  | none => some 0
  | some d => some (1 - d)

/-- `get_dice_score`: one entry per label of `range(9)`. -/
def get_dice_score (lab2d pred2d : List Nat) : List (Nat × Option ℚ) :=
  (List.range 9).map (fun k => (k, get_dice_score_entry lab2d pred2d k))

/-- `np.percentile(xs, 95)` with the default linear interpolation between
order statistics: sort ascending, take `h = 0.95 * (n - 1)` and interpolate
between the floor and ceiling order statistics.  Only invoked on non-empty
arrays in the source (numpy raises otherwise); the `n = 0` case returns a
junk value and is never reached. -/
def percentile95 (xs : List ℚ) : ℚ :=
  let s := xs.mergeSort (fun a b => a ≤ b)
  let n := s.length
  if n = 0 then 0
  else
    let h : ℚ := 95 / 100 * ((n : ℚ) - 1)
    let i : Nat := h.floor.toNat
    let j : Nat := h.ceil.toNat
    s.getD i 0 + (h - (i : ℚ)) * (s.getD j 0 - s.getD i 0)

/-- `getDistancesFromAtoB(a, b)`: build a kd-tree over the point set `a` and
return, for every point of `b`, the distance to its nearest neighbour in
`a`.  `scipy.spatial.KDTree` raises when built over an empty point set, and
its `query` raises when the query set is empty; both contract violations
are modelled by `none`. -/
def getDistancesFromAtoB (dist : Q3 → Q3 → ℚ) :
    List Q3 → List Q3 → Option (List ℚ)
  | [], _ => none
  | _ :: _, [] => none
  | q :: qs, p :: ps =>
      some ((p :: ps).map (fun x =>
        (qs.map (fun q2 => dist q2 x)).foldl min (dist q x)))

/-- The possible outcomes of one iteration of the `getHausdorff` loop:
the `None` entry stored when a mask is empty, a computed 95% Hausdorff
value, or an uncaught exception from the kd-tree engine (which aborts the
whole evaluation). -/
inductive HDEntry where
  | undef : HDEntry
  | crash : HDEntry
  | val : ℚ → HDEntry
deriving DecidableEq

/-- The loop body of `getHausdorff` at label `k`, translated clause by
clause from the source: threshold both images at `k`; if either mask sums
to zero store `None`; otherwise erode in-plane, subtract to get the
boundaries, map the nonzero boundary indices to physical coordinates with
each image's own transform, query nearest-neighbour distances in both
directions and take the max of the two 95th percentiles. -/
def getHausdorffEntry (dist : Q3 → Q3 → ℚ) (testImage resultImage : Image3)
    (k : Nat) : HDEntry :=
  if imageSum (binaryThreshold testImage k) = 0 ∨
     imageSum (binaryThreshold resultImage k) = 0 then HDEntry.undef
  else
    match
      getDistancesFromAtoB dist
        ((nonzeroIndices (subtractImg (binaryThreshold testImage k)
            (binaryErode (binaryThreshold testImage k)))).map
          (fun p => testImage.transform p.1 p.2.1 p.2.2))
        ((nonzeroIndices (subtractImg (binaryThreshold resultImage k)
            (binaryErode (binaryThreshold resultImage k)))).map
          (fun p => resultImage.transform p.1 p.2.1 p.2.2)),
      getDistancesFromAtoB dist
        ((nonzeroIndices (subtractImg (binaryThreshold resultImage k)
            (binaryErode (binaryThreshold resultImage k)))).map
          (fun p => resultImage.transform p.1 p.2.1 p.2.2))
        ((nonzeroIndices (subtractImg (binaryThreshold testImage k)
            (binaryErode (binaryThreshold testImage k)))).map
          (fun p => testImage.transform p.1 p.2.1 p.2.2)) with
    | some dTestToResult, some dResultToTest =>
        HDEntry.val (max (percentile95 dTestToResult) (percentile95 dResultToTest))
    | _, _ => HDEntry.crash

/-- The `getHausdorff` loop over a key list: an uncaught exception at any
label aborts the whole call (no mapping is returned, modelled by `none`);
otherwise each label contributes its entry in order. -/
def hdLoop (dist : Q3 → Q3 → ℚ) (testImage resultImage : Image3) :
    List Nat → Option (List (Nat × Option ℚ))
  | [] => some []
  | k :: ks =>
      match getHausdorffEntry dist testImage resultImage k with
      | HDEntry.crash => none
      | HDEntry.undef =>
          (hdLoop dist testImage resultImage ks).map (fun m => (k, none) :: m)
      | HDEntry.val q =>
          (hdLoop dist testImage resultImage ks).map (fun m => (k, some q) :: m)

/-- `getHausdorff`: the per-label 95% Hausdorff mapping over the keys of
`labels`, or no mapping at all if the kd-tree engine raises at some
label. -/
def getHausdorff (dist : Q3 → Q3 → ℚ) (testImage resultImage : Image3) :
    Option (List (Nat × Option ℚ)) :=
  hdLoop dist testImage resultImage labelKeys

/-- Boundary Extractor of spec section 4.2: the voxel indices of the mask
that a single slice-wise erosion removes (mask minus eroded mask). -/
def boundaryPointSet (mask : Image3) : List (Nat × Nat × Nat) :=
  nonzeroIndices (subtractImg mask (binaryErode mask))

/-- Coordinate Mapper of spec section 4.3 applied to a Boundary Point
Set. -/
def mapToPhysical (I : Image3) (ps : List (Nat × Nat × Nat)) : List Q3 :=
  ps.map (fun p => I.transform p.1 p.2.1 p.2.2)

/-- Hausdorff95 as the spec's sections 4.2-4.5 compose it, written from the
spec's words for the refinement claim: extract the Boundary Point Sets of
both binary masks, map both to physical coordinates, compute directed
nearest-neighbour distances test-to-result and result-to-test, take the
95th percentile of each directed distance array and return the maximum of
the two percentiles; `none` is the contract violation of invoking the
Nearest-Neighbour Distance Engine on an empty point set. -/
def hausdorff95Spec (dist : Q3 → Q3 → ℚ) (testImage resultImage : Image3)
    (k : Nat) : Option ℚ :=
  let testPts := mapToPhysical testImage (boundaryPointSet (binaryThreshold testImage k))
  let resultPts := mapToPhysical resultImage (boundaryPointSet (binaryThreshold resultImage k))
  match getDistancesFromAtoB dist testPts resultPts,
        getDistancesFromAtoB dist resultPts testPts with
  | some dTR, some dRT => some (max (percentile95 dTR) (percentile95 dRT))
  | _, _ => none

/-- The possible outcomes of one iteration of the `get_hausdorff_distance`
loop.  The body reshapes the two `np.where`-masked arrays to the hardcoded
shape `[220, 220, 48]` (`np.reshape` raises when the array size differs)
and then calls `getDistancesFromAtoB` on the two 3-D arrays themselves:
`scipy.spatial.KDTree` requires a 2-D array of points, so that call raises
`ValueError` for every input.  No branch of the body ever stores the
`None` marker, and no emptiness check is performed. -/
inductive GhdEntry where
  | undefMarker : GhdEntry
  | reshapeError : GhdEntry
  | engineOn3d : List Nat → List Nat → GhdEntry
deriving DecidableEq

/-- The loop body of `get_hausdorff_distance` at label `k` (see
`GhdEntry`). -/
def get_hausdorff_distance_entry (lab2d pred2d : List Nat) (k : Nat) : GhdEntry :=
  let gt_val := maskKeep lab2d k
  let pred_val := maskKeep pred2d k
  if gt_val.length = 220 * 220 * 48 ∧ pred_val.length = 220 * 220 * 48 then
    GhdEntry.engineOn3d gt_val pred_val
  else
    GhdEntry.reshapeError

/-- The loop body of `getVS` at label `k`: threshold both images, take the
absolute difference and the sum of the two mask sums, and store
`1 - numerator / denominator` when the denominator is positive, `None`
otherwise. -/
def getVS_entry (testImage resultImage : Image3) (k : Nat) : Option ℚ :=
  let A := imageSum (binaryThreshold testImage k)
  let B := imageSum (binaryThreshold resultImage k)
  let numerator := ((A : ℤ) - (B : ℤ)).natAbs
  let denominator := A + B
  if 0 < denominator then some (1 - (numerator : ℚ) / (denominator : ℚ))
  else none

/-- `getVS`: the per-label Volume Similarity mapping over the keys of
`labels`. -/
def getVS (testImage resultImage : Image3) : List (Nat × Option ℚ) :=
  labelKeys.map (fun k => (k, getVS_entry testImage resultImage k))

/-- The loop body of `get_volumetric_symmetry` at label `k`: the same
formula on the sums of the `np.where`-masked arrays, which carry the label
value `k` instead of 1. -/
def get_volumetric_symmetry_entry (lab2d pred2d : List Nat) (k : Nat) : Option ℚ :=
  let gtSum := (maskKeep lab2d k).sum
  let predSum := (maskKeep pred2d k).sum
  let numerator := ((gtSum : ℤ) - (predSum : ℤ)).natAbs
  let denominator := gtSum + predSum
  if 0 < denominator then some (1 - (numerator : ℚ) / (denominator : ℚ))
  else none

/-- `get_volumetric_symmetry`: one entry per label of `range(9)`. -/
def get_volumetric_symmetry (lab2d pred2d : List Nat) : List (Nat × Option ℚ) :=
  (List.range 9).map (fun k => (k, get_volumetric_symmetry_entry lab2d pred2d k))

/-- VolumeSimilarity as spec section 4.5 states it, written from the spec's
words for the comparison claims: with `A` and `B` the voxel counts of the
two binary masks, undefined when `A + B = 0` and otherwise
`1 - |A - B| / (A + B)`. -/
def volumeSimilaritySpec (A B : Nat) : Option ℚ :=
  if A + B = 0 then none
  else some (1 - (((A : ℤ) - (B : ℤ)).natAbs : ℚ) / ((A : ℚ) + (B : ℚ)))

/-- The voxel count of the binary mask of label `k` in a flat label array
(spec section 3, Binary Mask). -/
def maskCount (arr : List Nat) (k : Nat) : Nat := arr.count k

/-- A degenerate distance function used to instantiate the `dist`
parameter in concrete statements (the statements instantiated with it
never reach a distance computation, or do not depend on its values). -/
def distZero : Q3 → Q3 → ℚ := fun _ _ => 0

/-- A 1-voxel volume whose only voxel carries label 1.  Its label-1 mask is
non-empty, but the slice-wise erosion keeps the voxel (all four in-plane
neighbours are out of the image and count as foreground), so the
erosion-and-subtract boundary is empty. -/
def oneVoxelOne : Image3 :=
  { nx := 1, ny := 1, nz := 1, val := fun _ _ _ => 1,
    transform := fun _ _ _ => (0, 0, 0) }

/-- A 1-voxel volume whose only voxel carries the ignored label 9: every
mask of labels 0-8 is empty. -/
def oneVoxelNine : Image3 :=
  { nx := 1, ny := 1, nz := 1, val := fun _ _ _ => 9,
    transform := fun _ _ _ => (0, 0, 0) }

/-- A 3x1x1 volume with label pattern 1, 0, 1: its label-1 mask is
non-empty and has a non-empty boundary (both mask voxels neighbour the
background voxel in-plane). -/
def barThree : Image3 :=
  { nx := 3, ny := 1, nz := 1,
    val := fun x _ _ => if x = 1 then 0 else 1,
    transform := fun x y z => ((x : ℚ), (y : ℚ), (z : ℚ)) }


section Helpers

/-- Summing a `zipWith` whose combination vanishes on all element pairs
gives zero. -/
lemma sum_zipWith_eq_zero (f : ℚ → ℚ → ℚ) :
    ∀ (u v : List ℚ), (∀ a ∈ u, ∀ b ∈ v, f a b = 0) →
      (List.zipWith f u v).sum = 0 := by
  intro u
  induction u with
  | nil => intro v _; simp
  | cons a u ih =>
      intro v hv
      cases v with
      | nil => simp
      | cons b v =>
          simp only [List.zipWith_cons_cons, List.sum_cons]
          rw [hv a (by simp) b (by simp),
            ih v (fun x hx y hy => hv x (by simp [hx]) y (by simp [hy]))]
          simp

/-- Multiplying through a mapped sum. -/
lemma sum_map_mul_const (l : List ℚ) (b : ℚ) :
    (l.map (fun a => b * a)).sum = b * l.sum := by
  induction l with
  | nil => simp
  | cons a l ih => simp [ih, mul_add]

/-- scipy's dice raises `ZeroDivisionError` when both arrays are entirely
zero. -/
lemma scipyDice_allZero {u v : List Nat}
    (hu : ∀ a ∈ u, a = 0) (hv : ∀ b ∈ v, b = 0) :
    scipyDice u v = none := by
  have hu' : ∀ a ∈ u.map (fun a : Nat => (a : ℚ)), a = 0 := by
    intro a ha
    rcases List.mem_map.mp ha with ⟨b, hb, rfl⟩
    simp [hu b hb]
  have hv' : ∀ a ∈ v.map (fun a : Nat => (a : ℚ)), a = 0 := by
    intro a ha
    rcases List.mem_map.mp ha with ⟨b, hb, rfl⟩
    simp [hv b hb]
  have h1 := sum_zipWith_eq_zero (fun a b => a * b)
    (u.map (fun a : Nat => (a : ℚ))) (v.map (fun a : Nat => (a : ℚ)))
    (fun a ha b _ => by simp [hu' a ha])
  have h2 := sum_zipWith_eq_zero (fun a b => a * (1 - b))
    (u.map (fun a : Nat => (a : ℚ))) (v.map (fun a : Nat => (a : ℚ)))
    (fun a ha b _ => by simp [hu' a ha])
  have h3 := sum_zipWith_eq_zero (fun a b => (1 - a) * b)
    (u.map (fun a : Nat => (a : ℚ))) (v.map (fun a : Nat => (a : ℚ)))
    (fun a _ b hb => by simp [hv' b hb])
  simp only [scipyDice, h1, h2, h3]
  norm_num

/-- scipy's dice on an array compared with itself, when every entry is `0`
or `k` and the sum is positive: the result is the dissimilarity `1 - k`
(so the reported similarity `1 - dice` is `k`, not `1`, for `k ≥ 2`). -/
lemma scipyDice_self_scaled (k : Nat) (u : List Nat)
    (hmem : ∀ a ∈ u, a = 0 ∨ a = k) (hsum : u.sum ≠ 0) :
    scipyDice u u = some (1 - (k : ℚ)) := by
  set uq : List ℚ := u.map (fun a : Nat => (a : ℚ)) with huq
  have hmem' : ∀ a ∈ uq, a = 0 ∨ a = (k : ℚ) := by
    intro a ha
    rcases List.mem_map.mp ha with ⟨b, hb, rfl⟩
    rcases hmem b hb with h | h <;> simp [h]
  have hS : uq.sum ≠ 0 := by
    rw [huq, ← Nat.cast_list_sum]
    exact_mod_cast hsum
  have hntt : (List.zipWith (fun a b => a * b) uq uq).sum = (k : ℚ) * uq.sum := by
    rw [List.zipWith_same]
    rw [List.map_congr_left (g := fun a => (k : ℚ) * a)
      (fun a ha => by rcases hmem' a ha with h | h <;> simp [h] <;> ring)]
    exact sum_map_mul_const uq (k : ℚ)
  have hntf : (List.zipWith (fun a b => a * (1 - b)) uq uq).sum
      = (1 - (k : ℚ)) * uq.sum := by
    rw [List.zipWith_same]
    rw [List.map_congr_left (g := fun a => (1 - (k : ℚ)) * a)
      (fun a ha => by rcases hmem' a ha with h | h <;> simp [h] <;> ring)]
    exact sum_map_mul_const uq (1 - (k : ℚ))
  have hnft : (List.zipWith (fun a b => (1 - a) * b) uq uq).sum
      = (1 - (k : ℚ)) * uq.sum := by
    rw [List.zipWith_same]
    rw [List.map_congr_left (g := fun a => (1 - (k : ℚ)) * a)
      (fun a ha => by rcases hmem' a ha with h | h <;> simp [h] <;> ring)]
    exact sum_map_mul_const uq (1 - (k : ℚ))
  have hden : 2 * ((k : ℚ) * uq.sum) + (1 - (k : ℚ)) * uq.sum
      + (1 - (k : ℚ)) * uq.sum = 2 * uq.sum := by ring
  simp only [scipyDice, ← huq, hntt, hntf, hnft]
  rw [if_neg (by rw [hden]; exact mul_ne_zero two_ne_zero hS)]
  congr 1
  rw [hden]
  field_simp
  ring

end Helpers

section MoreHelpers

/-- Every entry of a `np.where`-masked array is `0` or the label value. -/
lemma maskKeep_mem (arr : List Nat) (k : Nat) :
    ∀ a ∈ maskKeep arr k, a = 0 ∨ a = k := by
  intro a ha
  rcases List.mem_map.mp ha with ⟨v, _, rfl⟩
  by_cases h : v = k <;> simp [h]

/-- Masking with the background label keeps nothing: every entry is `0`. -/
lemma maskKeep_zero_label (arr : List Nat) :
    ∀ a ∈ maskKeep arr 0, a = 0 := by
  intro a ha
  rcases maskKeep_mem arr 0 a ha with h | h <;> exact h

/-- The sum of a masked array is the label value times the voxel count of
the label's binary mask. -/
lemma maskKeep_sum (arr : List Nat) (k : Nat) :
    (maskKeep arr k).sum = k * maskCount arr k := by
  induction arr with
  | nil => simp [maskKeep, maskCount]
  | cons a l ih =>
      simp only [maskKeep, maskCount, List.map_cons, List.sum_cons,
        List.count_cons] at ih ⊢
      by_cases h : a = k
      · subst h
        simp only [if_pos rfl, beq_self_eq_true, if_true]
        rw [ih]
        ring
      · have hba : (a == k) = false := by simp [h]
        simp only [if_neg h, hba, Bool.false_eq_true, if_false, Nat.zero_add,
          Nat.add_zero]
        exact ih

/-- Every voxel of a thresholded (binary mask) image is `0` or `1`, so the
flattened array is 0/1-valued. -/
lemma flatten_threshold_le_one (I : Image3) (k : Nat) :
    ∀ a ∈ flattenImage (binaryThreshold I k), a ≤ 1 := by
  intro a ha
  rcases List.mem_map.mp ha with ⟨p, _, rfl⟩
  simp only [binaryThreshold]
  split <;> omega

/-- An image sums to zero exactly when its flattened array is all zero. -/
lemma imageSum_eq_zero_iff (I : Image3) :
    imageSum I = 0 ↔ ∀ a ∈ flattenImage I, a = 0 := by
  simpa [imageSum] using List.sum_eq_zero_iff

/-- The kd-tree engine raises (returns `none`) exactly when one of the two
point sets is empty. -/
lemma getDistancesFromAtoB_eq_none_iff (dist : Q3 → Q3 → ℚ) (a b : List Q3) :
    getDistancesFromAtoB dist a b = none ↔ a = [] ∨ b = [] := by
  cases a with
  | nil => simp [getDistancesFromAtoB]
  | cons q qs =>
      cases b with
      | nil => simp [getDistancesFromAtoB]
      | cons p ps => simp [getDistancesFromAtoB]

/-- Membership in the index enumeration of an image. -/
lemma mem_allIndices (I : Image3) (x y z : Nat) :
    (x, y, z) ∈ allIndices I ↔ x < I.nx ∧ y < I.ny ∧ z < I.nz := by
  simp only [allIndices, List.mem_flatMap, List.mem_map, List.mem_range,
    Prod.mk.injEq]
  constructor
  · rintro ⟨z1, hz, y1, hy, x1, hx, rfl, rfl, rfl⟩
    exact ⟨hx, hy, hz⟩
  · rintro ⟨hx, hy, hz⟩
    exact ⟨z, hz, y, hy, x, hx, rfl, rfl, rfl⟩

/-- The nonzero-index list of an image is empty when all in-bounds voxels
are zero. -/
lemma nonzeroIndices_eq_nil (I : Image3)
    (h : ∀ x < I.nx, ∀ y < I.ny, ∀ z < I.nz, I.val x y z = 0) :
    nonzeroIndices I = [] := by
  rw [nonzeroIndices, List.filter_eq_nil_iff]
  rintro ⟨x, y, z⟩ hp
  rcases (mem_allIndices I x y z).mp hp with ⟨hx, hy, hz⟩
  simp [h x hx y hy z hz]

/-- If no entry of the key list makes the `getHausdorff` loop body raise,
the loop returns a mapping whose keys are exactly the key list, in
order. -/
lemma hdLoop_keys (dist : Q3 → Q3 → ℚ) (t r : Image3) :
    ∀ ks : List Nat, (∀ k ∈ ks, getHausdorffEntry dist t r k ≠ HDEntry.crash) →
      ∃ m, hdLoop dist t r ks = some m ∧ m.map Prod.fst = ks := by
  intro ks
  induction ks with
  | nil => intro _; exact ⟨[], rfl, rfl⟩
  | cons k ks ih =>
      intro h
      rcases ih (fun x hx => h x (by simp [hx])) with ⟨m, hm, hkeys⟩
      cases hk : getHausdorffEntry dist t r k with
      | crash => exact absurd hk (h k (by simp))
      | undef =>
          exact ⟨(k, none) :: m, by simp [hdLoop, hk, hm], by simp [hkeys]⟩
      | val q =>
          exact ⟨(k, some q) :: m, by simp [hdLoop, hk, hm], by simp [hkeys]⟩

end MoreHelpers

section MetricHelpers

/-- Cast of an integer absolute difference of naturals into ℚ. -/
lemma natAbs_cast_q (x y : Nat) :
    ((((x : ℤ) - (y : ℤ)).natAbs : ℚ)) = |(x : ℚ) - (y : ℚ)| := by
  rw [Int.cast_natAbs]
  push_cast
  ring_nf

/-- The spec's Volume Similarity value exists, lies in the unit interval
and attains 1 exactly at equal counts, whenever some voxels exist. -/
lemma volumeSimilaritySpec_bounds (A B : Nat) (h : A + B ≠ 0) :
    ∃ q, volumeSimilaritySpec A B = some q ∧
      0 ≤ q ∧ q ≤ 1 ∧ (q = 1 ↔ A = B) := by
  have hd : (0 : ℚ) < (A : ℚ) + (B : ℚ) := by
    have : 0 < A + B := Nat.pos_of_ne_zero h
    exact_mod_cast this
  have hn : (0 : ℚ) ≤ (((A : ℤ) - (B : ℤ)).natAbs : ℚ) := by positivity
  have hnd : (((A : ℤ) - (B : ℤ)).natAbs : ℚ) ≤ (A : ℚ) + (B : ℚ) := by
    have : ((A : ℤ) - (B : ℤ)).natAbs ≤ A + B := by omega
    exact_mod_cast this
  refine ⟨_, by rw [volumeSimilaritySpec, if_neg h], ?_, ?_, ?_⟩
  · have : (((A : ℤ) - (B : ℤ)).natAbs : ℚ) / ((A : ℚ) + (B : ℚ)) ≤ 1 :=
      (div_le_one hd).mpr hnd
    linarith
  · have : 0 ≤ (((A : ℤ) - (B : ℤ)).natAbs : ℚ) / ((A : ℚ) + (B : ℚ)) :=
      div_nonneg hn (le_of_lt hd)
    linarith
  · constructor
    · intro h1
      have : (((A : ℤ) - (B : ℤ)).natAbs : ℚ) / ((A : ℚ) + (B : ℚ)) = 0 := by
        linarith
      have h0 : (((A : ℤ) - (B : ℤ)).natAbs : ℚ) = 0 := by
        rcases div_eq_zero_iff.mp this with h' | h'
        · exact h'
        · exact absurd h' (ne_of_gt hd)
      have : ((A : ℤ) - (B : ℤ)).natAbs = 0 := by exact_mod_cast h0
      omega
    · intro h1
      subst h1
      simp

/-- `getVS` computes exactly the spec's Volume Similarity of the two mask
voxel counts. -/
lemma getVS_entry_eq_spec (t r : Image3) (k : Nat) :
    getVS_entry t r k =
      volumeSimilaritySpec (imageSum (binaryThreshold t k))
        (imageSum (binaryThreshold r k)) := by
  unfold getVS_entry volumeSimilaritySpec
  by_cases h : imageSum (binaryThreshold t k) + imageSum (binaryThreshold r k) = 0
  · rw [if_neg (by omega), if_pos h]
  · rw [if_pos (Nat.pos_of_ne_zero h), if_neg h]
    congr 1
    push_cast
    ring

/-- For a positive label, `get_volumetric_symmetry` agrees with the spec's
Volume Similarity of the two voxel counts: the factor `k` carried by the
masked arrays cancels. -/
lemma gvs_entry_eq_spec (lab2d pred2d : List Nat) (k : Nat) (hk : 1 ≤ k) :
    get_volumetric_symmetry_entry lab2d pred2d k =
      volumeSimilaritySpec (maskCount lab2d k) (maskCount pred2d k) := by
  unfold get_volumetric_symmetry_entry volumeSimilaritySpec
  rw [maskKeep_sum, maskKeep_sum]
  by_cases h : maskCount lab2d k + maskCount pred2d k = 0
  · have hA : maskCount lab2d k = 0 := by omega
    have hB : maskCount pred2d k = 0 := by omega
    rw [hA, hB]
    simp
  · have hpos : 0 < k * maskCount lab2d k + k * maskCount pred2d k := by
      have h1 : 0 < maskCount lab2d k + maskCount pred2d k := Nat.pos_of_ne_zero h
      have h2 : 0 < k * (maskCount lab2d k + maskCount pred2d k) :=
        Nat.mul_pos (by omega) h1
      rw [Nat.mul_add] at h2
      exact h2
    rw [if_pos hpos, if_neg h]
    congr 1
    rw [natAbs_cast_q, natAbs_cast_q]
    have hkq : (0 : ℚ) < (k : ℚ) := by exact_mod_cast Nat.pos_of_ne_zero (by omega)
    have hdq : (0 : ℚ) < (maskCount lab2d k : ℚ) + (maskCount pred2d k : ℚ) := by
      have : 0 < maskCount lab2d k + maskCount pred2d k := Nat.pos_of_ne_zero h
      exact_mod_cast this
    push_cast
    rw [show (k : ℚ) * (maskCount lab2d k : ℚ) - (k : ℚ) * (maskCount pred2d k : ℚ)
        = (k : ℚ) * ((maskCount lab2d k : ℚ) - (maskCount pred2d k : ℚ)) by ring,
      abs_mul, abs_of_pos hkq,
      show (k : ℚ) * (maskCount lab2d k : ℚ) + (k : ℚ) * (maskCount pred2d k : ℚ)
        = (k : ℚ) * ((maskCount lab2d k : ℚ) + (maskCount pred2d k : ℚ)) by ring,
      mul_div_mul_left _ _ (ne_of_gt hkq)]

/-- `get_volumetric_symmetry` at the background label stores `None` no
matter what the inputs are. -/
lemma gvs_entry_label_zero (lab2d pred2d : List Nat) :
    get_volumetric_symmetry_entry lab2d pred2d 0 = none := by
  unfold get_volumetric_symmetry_entry
  rw [maskKeep_sum, maskKeep_sum]
  simp

/-- `get_dice_score` at the background label stores the number `0` no
matter what the inputs are. -/
lemma gds_entry_label_zero (lab2d pred2d : List Nat) :
    get_dice_score_entry lab2d pred2d 0 = some 0 := by
  unfold get_dice_score_entry
  rw [scipyDice_allZero (maskKeep_zero_label lab2d) (maskKeep_zero_label pred2d)]

/-- `getDSC` stores `None` at a label for which both binary masks are
entirely zero. -/
lemma getDSC_entry_bothEmpty (t r : Image3) (k : Nat)
    (ht : imageSum (binaryThreshold t k) = 0)
    (hr : imageSum (binaryThreshold r k) = 0) :
    getDSC_entry t r k = none := by
  unfold getDSC_entry
  rw [scipyDice_allZero ((imageSum_eq_zero_iff _).mp ht)
    ((imageSum_eq_zero_iff _).mp hr)]
  rfl

/-- `getVS` stores `None` at a label for which both binary masks are
entirely zero. -/
lemma getVS_entry_bothEmpty (t r : Image3) (k : Nat)
    (ht : imageSum (binaryThreshold t k) = 0)
    (hr : imageSum (binaryThreshold r k) = 0) :
    getVS_entry t r k = none := by
  unfold getVS_entry
  rw [if_neg (by omega)]

/-- `getHausdorff` stores `None` at a label for which either binary mask
is entirely zero (and does not reach the boundary extraction). -/
lemma getHausdorffEntry_emptyMask (dist : Q3 → Q3 → ℚ) (t r : Image3) (k : Nat)
    (h : imageSum (binaryThreshold t k) = 0 ∨ imageSum (binaryThreshold r k) = 0) :
    getHausdorffEntry dist t r k = HDEntry.undef := by
  unfold getHausdorffEntry
  rw [if_pos h]

/-- Dice of a non-empty binary mask against itself is 1 in the `getDSC`
path. -/
lemma getDSC_entry_self (t : Image3) (k : Nat)
    (h : imageSum (binaryThreshold t k) ≠ 0) :
    getDSC_entry t t k = some 1 := by
  unfold getDSC_entry
  rw [scipyDice_self_scaled 1 _
    (fun a ha => by have := flatten_threshold_le_one t k a ha; omega) h]
  norm_num

/-- Dice of a non-empty mask against itself in the `get_dice_score` path
is the label value `k`, not 1 (the masked arrays carry the value `k` and
scipy's non-boolean formula scales accordingly). -/
lemma gds_entry_self (lab2d : List Nat) (k : Nat) (h : maskCount lab2d k ≠ 0) :
    get_dice_score_entry lab2d lab2d k = some (k : ℚ) := by
  rcases Nat.eq_zero_or_pos k with hk | hk
  · subst hk
    rw [gds_entry_label_zero]
    norm_num
  · unfold get_dice_score_entry
    have hsum : (maskKeep lab2d k).sum ≠ 0 := by
      rw [maskKeep_sum]
      exact Nat.mul_ne_zero (by omega) h
    rw [scipyDice_self_scaled k _ (maskKeep_mem lab2d k) hsum]
    norm_num

end MetricHelpers
section HausdorffHelpers

/-- A binary mask: every in-bounds voxel is 0 or 1. -/
def isBinaryMask (I : Image3) : Prop :=
  ∀ x < I.nx, ∀ y < I.ny, ∀ z < I.nz, I.val x y z ≤ 1

instance (I : Image3) : Decidable (isBinaryMask I) := by
  unfold isBinaryMask
  infer_instance

/-- The `get_hausdorff_distance` loop body never stores the `None` marker:
its two branches are the reshape failure and the unconditional kd-tree
invocation. -/
lemma ghd_entry_ne_undefMarker (lab2d pred2d : List Nat) (k : Nat) :
    get_hausdorff_distance_entry lab2d pred2d k ≠ GhdEntry.undefMarker := by
  simp only [get_hausdorff_distance_entry]
  split <;> simp

/-- `getHausdorffEntry` written with the named spec components (a
definitional regrouping used by several proofs). -/
lemma getHausdorffEntry_eq (dist : Q3 → Q3 → ℚ) (t r : Image3) (k : Nat) :
    getHausdorffEntry dist t r k =
      if imageSum (binaryThreshold t k) = 0 ∨ imageSum (binaryThreshold r k) = 0
      then HDEntry.undef
      else
        match
          getDistancesFromAtoB dist
            (mapToPhysical t (boundaryPointSet (binaryThreshold t k)))
            (mapToPhysical r (boundaryPointSet (binaryThreshold r k))),
          getDistancesFromAtoB dist
            (mapToPhysical r (boundaryPointSet (binaryThreshold r k)))
            (mapToPhysical t (boundaryPointSet (binaryThreshold t k))) with
        | some dTR, some dRT =>
            HDEntry.val (max (percentile95 dTR) (percentile95 dRT))
        | _, _ => HDEntry.crash := rfl

/-- The `getHausdorff` loop body raises exactly when both masks pass the
non-emptiness guard but one of the two boundary point sets is empty. -/
lemma getHausdorffEntry_crash_iff (dist : Q3 → Q3 → ℚ) (t r : Image3) (k : Nat) :
    getHausdorffEntry dist t r k = HDEntry.crash ↔
      (imageSum (binaryThreshold t k) ≠ 0 ∧ imageSum (binaryThreshold r k) ≠ 0) ∧
      (boundaryPointSet (binaryThreshold t k) = [] ∨
        boundaryPointSet (binaryThreshold r k) = []) := by
  rw [getHausdorffEntry_eq]
  by_cases hg : imageSum (binaryThreshold t k) = 0 ∨
      imageSum (binaryThreshold r k) = 0
  · rw [if_pos hg]
    constructor
    · intro h
      exact absurd h (by simp)
    · rintro ⟨⟨h1, h2⟩, _⟩
      exact absurd hg (by tauto)
  · rw [if_neg hg]
    push_neg at hg
    rcases h1 : getDistancesFromAtoB dist
        (mapToPhysical t (boundaryPointSet (binaryThreshold t k)))
        (mapToPhysical r (boundaryPointSet (binaryThreshold r k))) with _ | d1 <;>
      rcases h2 : getDistancesFromAtoB dist
          (mapToPhysical r (boundaryPointSet (binaryThreshold r k)))
          (mapToPhysical t (boundaryPointSet (binaryThreshold t k))) with _ | d2
    · rcases (getDistancesFromAtoB_eq_none_iff dist _ _).mp h1 with h | h <;>
        simp only [mapToPhysical, List.map_eq_nil_iff] at h
      · exact ⟨fun _ => ⟨hg, Or.inl h⟩, fun _ => by simp [h1, h2]⟩
      · exact ⟨fun _ => ⟨hg, Or.inr h⟩, fun _ => by simp [h1, h2]⟩
    · rcases (getDistancesFromAtoB_eq_none_iff dist _ _).mp h1 with h | h <;>
        simp only [mapToPhysical, List.map_eq_nil_iff] at h
      · exact ⟨fun _ => ⟨hg, Or.inl h⟩, fun _ => by simp [h1, h2]⟩
      · exact ⟨fun _ => ⟨hg, Or.inr h⟩, fun _ => by simp [h1, h2]⟩
    · rcases (getDistancesFromAtoB_eq_none_iff dist _ _).mp h2 with h | h <;>
        simp only [mapToPhysical, List.map_eq_nil_iff] at h
      · exact ⟨fun _ => ⟨hg, Or.inr h⟩, fun _ => by simp [h1, h2]⟩
      · exact ⟨fun _ => ⟨hg, Or.inl h⟩, fun _ => by simp [h1, h2]⟩
    · constructor
      · intro h
        exact absurd h (by simp)
      · rintro ⟨_, hb | hb⟩
        · rw [show mapToPhysical t (boundaryPointSet (binaryThreshold t k)) = []
              from by simp [mapToPhysical, hb]] at h1
          simp [getDistancesFromAtoB] at h1
        · rw [show mapToPhysical r (boundaryPointSet (binaryThreshold r k)) = []
              from by simp [mapToPhysical, hb]] at h2
          simp [getDistancesFromAtoB] at h2

end HausdorffHelpers

section ClaimSupport

/-- Projecting the keys out of a per-label mapping built over a key list. -/
lemma map_pair_fst (e : Nat → Option ℚ) (l : List Nat) :
    (l.map (fun k => (k, e k))).map Prod.fst = l := by
  rw [List.map_map]
  induction l with
  | nil => rfl
  | cons a l ih => simp [ih]

/-- If a label does not occur in an array, the `np.where`-masked array is
entirely zero. -/
lemma maskKeep_all_zero_of_count (arr : List Nat) (k : Nat)
    (h : maskCount arr k = 0) : ∀ a ∈ maskKeep arr k, a = 0 := by
  intro a ha
  rcases List.mem_map.mp ha with ⟨v, hv, rfl⟩
  by_cases hvk : v = k
  · exfalso
    have hmem : k ∈ arr := hvk ▸ hv
    have := List.count_pos_iff.mpr hmem
    simp only [maskCount] at h
    omega
  · simp [hvk]

/-- A 1-voxel all-zero volume. -/
def oneVoxelZero : Image3 :=
  { nx := 1, ny := 1, nz := 1, val := fun _ _ _ => 0,
    transform := fun _ _ _ => (0, 0, 0) }

end ClaimSupport

/-- C1: the claim that the Dice zero/zero policy is an explicit `None`
marker in every call path fails: at the concrete pair of one-voxel label
volumes carrying label 1, both binary masks of the background label 0 are
entirely zero; the `getDSC` path stores `None`, but the `get_dice_score`
path catches the `ZeroDivisionError` and silently stores the number `0`. -/
theorem c1_counterexample :
    imageSum (binaryThreshold oneVoxelOne 0) = 0 ∧
    maskCount [1] 0 = 0 ∧
    getDSC_entry oneVoxelOne oneVoxelOne 0 = none ∧
    get_dice_score_entry [1] [1] 0 = some 0 :=
  ⟨by decide, by decide,
   getDSC_entry_bothEmpty oneVoxelOne oneVoxelOne 0 (by decide) (by decide),
   gds_entry_label_zero [1] [1]⟩

/-- C1 (amended): when both binary masks for a label are entirely zero,
`getDSC` stores the explicit `None` marker, while `get_dice_score` stores
the number `0`; the degenerate-case policy is not the same at the two call
paths. -/
theorem c1_amended_dice_zero_policy :
    (∀ (t r : Image3) (k : Nat),
      imageSum (binaryThreshold t k) = 0 → imageSum (binaryThreshold r k) = 0 →
        getDSC_entry t r k = none) ∧
    (∀ (lab2d pred2d : List Nat) (k : Nat),
      maskCount lab2d k = 0 → maskCount pred2d k = 0 →
        get_dice_score_entry lab2d pred2d k = some 0) := by
  constructor
  · exact fun t r k ht hr => getDSC_entry_bothEmpty t r k ht hr
  · intro lab2d pred2d k hl hp
    unfold get_dice_score_entry
    rw [scipyDice_allZero (maskKeep_all_zero_of_count lab2d k hl)
      (maskKeep_all_zero_of_count pred2d k hp)]

/-- C1 witness: the amended policy statement at the concrete inputs of the
counterexample. -/
theorem c1_amended_witness :
    getDSC_entry oneVoxelOne oneVoxelOne 0 = none ∧
    get_dice_score_entry [1] [1] 0 = some 0 :=
  ⟨c1_amended_dice_zero_policy.1 oneVoxelOne oneVoxelOne 0 (by decide) (by decide),
   c1_amended_dice_zero_policy.2 [1] [1] 0 (by decide) (by decide)⟩

/-- C2: the claim that every Hausdorff call path returns the `None` marker
on an empty mask fails: on all-background arrays of the hardcoded size
220*220*48, the label-1 mask of `get_hausdorff_distance` is entirely
empty, yet the loop body does not produce the `None` marker (it has no
emptiness check at all and proceeds to the kd-tree call). -/
theorem c2_counterexample :
    maskCount (List.replicate (220 * 220 * 48) 0) 1 = 0 ∧
    get_hausdorff_distance_entry (List.replicate (220 * 220 * 48) 0)
      (List.replicate (220 * 220 * 48) 0) 1 ≠ GhdEntry.undefMarker :=
  ⟨by show List.count 1 (List.replicate (220 * 220 * 48) 0) = 0
      rw [List.count_replicate]
      norm_num,
   ghd_entry_ne_undefMarker _ _ _⟩

/-- C2 (amended): `getHausdorff` stores the `None` marker, without
attempting boundary extraction or nearest-neighbour search, whenever
either binary mask is entirely empty; but `get_hausdorff_distance`
performs no emptiness check and never stores the `None` marker. -/
theorem c2_amended_hausdorff_empty_guard :
    (∀ (dist : Q3 → Q3 → ℚ) (t r : Image3) (k : Nat),
      imageSum (binaryThreshold t k) = 0 ∨ imageSum (binaryThreshold r k) = 0 →
        getHausdorffEntry dist t r k = HDEntry.undef) ∧
    (∀ (lab2d pred2d : List Nat) (k : Nat),
      get_hausdorff_distance_entry lab2d pred2d k ≠ GhdEntry.undefMarker) :=
  ⟨fun dist t r k h => getHausdorffEntry_emptyMask dist t r k h,
   fun lab2d pred2d k => ghd_entry_ne_undefMarker lab2d pred2d k⟩

/-- C2 witness: the amended statement at concrete inputs. -/
theorem c2_amended_witness :
    getHausdorffEntry distZero oneVoxelNine oneVoxelNine 1 = HDEntry.undef ∧
    get_hausdorff_distance_entry [0] [0] 1 ≠ GhdEntry.undefMarker :=
  ⟨c2_amended_hausdorff_empty_guard.1 distZero oneVoxelNine oneVoxelNine 1
    (Or.inl (by decide)),
   c2_amended_hausdorff_empty_guard.2 [0] [0] 1⟩

/-- C3: the claim that each metric function always returns a mapping with
exactly 9 entries fails for `getHausdorff`: on the pair of one-voxel
volumes carrying label 1, the label-1 masks are non-empty but their
boundaries are empty, the kd-tree engine raises, and `getHausdorff`
returns no mapping at all. -/
theorem c3_counterexample :
    getHausdorff distZero oneVoxelOne oneVoxelOne = none := by decide

/-- C3 (amended): `getDSC` and `getVS` always return exactly 9 entries, one
per label identifier, in the label set's iteration order, and a label whose
two masks are empty only yields undefined entries for that label;
`getHausdorff` returns its 9 entries in order provided no label makes the
kd-tree engine raise (a label with an empty mask is guarded and stores
`None`; a label whose non-empty mask has an empty boundary aborts the
whole call instead). -/
theorem c3_amended_mapping_shape (dist : Q3 → Q3 → ℚ) (t r : Image3) :
    (getDSC t r).map Prod.fst = labelKeys ∧
    (getVS t r).map Prod.fst = labelKeys ∧
    ((∀ k ∈ labelKeys, getHausdorffEntry dist t r k ≠ HDEntry.crash) →
      ∃ m, getHausdorff dist t r = some m ∧ m.map Prod.fst = labelKeys) ∧
    (∀ k : Nat, imageSum (binaryThreshold t k) = 0 →
      imageSum (binaryThreshold r k) = 0 →
        getDSC_entry t r k = none ∧ getVS_entry t r k = none ∧
        getHausdorffEntry dist t r k = HDEntry.undef) := by
  refine ⟨map_pair_fst _ labelKeys, map_pair_fst _ labelKeys,
    hdLoop_keys dist t r labelKeys, ?_⟩
  intro k h1 h2
  exact ⟨getDSC_entry_bothEmpty t r k h1 h2, getVS_entry_bothEmpty t r k h1 h2,
    getHausdorffEntry_emptyMask dist t r k (Or.inl h1)⟩

/-- C3 witness: on a pair of volumes where every evaluated label's masks
are empty, `getHausdorff` does return a full mapping in key order, and an
empty-mask label stores the undefined entry. -/
theorem c3_amended_witness :
    (∃ m, getHausdorff distZero oneVoxelNine oneVoxelNine = some m ∧
      m.map Prod.fst = labelKeys) ∧
    getHausdorffEntry distZero oneVoxelNine oneVoxelNine 1 = HDEntry.undef :=
  ⟨(c3_amended_mapping_shape distZero oneVoxelNine oneVoxelNine).2.2.1 (by decide),
   ((c3_amended_mapping_shape distZero oneVoxelNine oneVoxelNine).2.2.2 1
     (by decide) (by decide)).2.2⟩

/-- C4: for every label whose two binary masks are both non-empty,
`getHausdorff`'s loop body computes exactly the spec's pipeline: slice-wise
erosion-and-subtract boundary extraction of both masks, mapping of the
boundary voxels to physical coordinates, directed nearest-neighbour
distances test-to-result and result-to-test, the 95th percentile of each
directed distance array, and the maximum of the two percentiles (the
engine's contract violation on an empty point set surfaces as the
uncaught exception on both sides). -/
theorem c4_hausdorff_pipeline (dist : Q3 → Q3 → ℚ) (t r : Image3) (k : Nat)
    (h1 : imageSum (binaryThreshold t k) ≠ 0)
    (h2 : imageSum (binaryThreshold r k) ≠ 0) :
    getHausdorffEntry dist t r k =
      (hausdorff95Spec dist t r k).elim HDEntry.crash HDEntry.val := by
  rw [getHausdorffEntry_eq, if_neg (by tauto)]
  simp only [hausdorff95Spec]
  cases hA : getDistancesFromAtoB dist
      (mapToPhysical t (boundaryPointSet (binaryThreshold t k)))
      (mapToPhysical r (boundaryPointSet (binaryThreshold r k))) <;>
    cases hB : getDistancesFromAtoB dist
        (mapToPhysical r (boundaryPointSet (binaryThreshold r k)))
        (mapToPhysical t (boundaryPointSet (binaryThreshold t k))) <;>
    simp [hA, hB]

/-- C4 witness: the pipeline equation at a concrete volume whose label-1
mask and boundary are non-empty. -/
theorem c4_witness :
    getHausdorffEntry distZero barThree barThree 1 =
      (hausdorff95Spec distZero barThree barThree 1).elim HDEntry.crash HDEntry.val :=
  c4_hausdorff_pipeline distZero barThree barThree 1 (by decide) (by decide)

/-- C5: the claim that in every call path the Volume Similarity of voxel
counts `A`, `B` is defined whenever `A + B > 0` fails for
`get_volumetric_symmetry` at the background label: on the pair of one-voxel
background arrays, both label-0 masks have one voxel (`A + B = 2`), yet the
function stores the undefined marker, because the `np.where`-masked arrays
sum to zero at label 0. -/
theorem c5_counterexample :
    maskCount [0] 0 + maskCount [0] 0 ≠ 0 ∧
    get_volumetric_symmetry_entry [0] [0] 0 = none :=
  ⟨by decide, gvs_entry_label_zero [0] [0]⟩

/-- C5 (amended): `getVS` computes the spec formula of the two mask voxel
counts at every label; the formula is undefined exactly when `A + B = 0`
and otherwise yields a value in `[0, 1]` equal to 1 iff `A = B`;
`get_volumetric_symmetry` agrees with the same formula for the labels
1 through 8, but at label 0 it stores the undefined marker regardless of
the voxel counts. -/
theorem c5_amended_volume_similarity :
    (∀ (t r : Image3) (k : Nat),
      getVS_entry t r k =
        volumeSimilaritySpec (imageSum (binaryThreshold t k))
          (imageSum (binaryThreshold r k))) ∧
    (∀ A B : Nat, A + B = 0 → volumeSimilaritySpec A B = none) ∧
    (∀ A B : Nat, A + B ≠ 0 →
      ∃ q, volumeSimilaritySpec A B = some q ∧
        0 ≤ q ∧ q ≤ 1 ∧ (q = 1 ↔ A = B)) ∧
    (∀ (lab2d pred2d : List Nat) (k : Nat), 1 ≤ k →
      get_volumetric_symmetry_entry lab2d pred2d k =
        volumeSimilaritySpec (maskCount lab2d k) (maskCount pred2d k)) ∧
    (∀ lab2d pred2d : List Nat,
      get_volumetric_symmetry_entry lab2d pred2d 0 = none) :=
  ⟨fun t r k => getVS_entry_eq_spec t r k,
   fun A B h => by rw [volumeSimilaritySpec, if_pos h],
   fun A B h => volumeSimilaritySpec_bounds A B h,
   fun lab2d pred2d k hk => gvs_entry_eq_spec lab2d pred2d k hk,
   fun lab2d pred2d => gvs_entry_label_zero lab2d pred2d⟩

/-- C5 witness: the amended statement's hypothesis-bearing parts at
concrete inputs. -/
theorem c5_amended_witness :
    volumeSimilaritySpec 0 0 = none ∧
    (∃ q, volumeSimilaritySpec 1 2 = some q ∧
      0 ≤ q ∧ q ≤ 1 ∧ (q = 1 ↔ (1 : Nat) = 2)) ∧
    get_volumetric_symmetry_entry [1] [0, 1] 1 =
      volumeSimilaritySpec (maskCount [1] 1) (maskCount [0, 1] 1) :=
  ⟨c5_amended_volume_similarity.2.1 0 0 (by decide),
   c5_amended_volume_similarity.2.2.1 1 2 (by decide),
   c5_amended_volume_similarity.2.2.2.1 [1] [0, 1] 1 (by decide)⟩

/-- C6: the claim that the kd-tree engine is never invoked on an empty
point set fails: on the pair of one-voxel volumes carrying label 1, the
label-1 masks are non-empty (the caller's guard passes), but the slice-wise
erosion keeps the single voxel (out-of-image neighbours count as
foreground), the boundary point set is empty, and the engine's empty-input
branch is reached, aborting the loop. -/
theorem c6_counterexample :
    imageSum (binaryThreshold oneVoxelOne 1) ≠ 0 ∧
    boundaryPointSet (binaryThreshold oneVoxelOne 1) = [] ∧
    getHausdorffEntry distZero oneVoxelOne oneVoxelOne 1 = HDEntry.crash :=
  ⟨by decide, by decide, by decide⟩

/-- C6 (amended): the `getHausdorff` caller does special-case empty masks
before invoking the kd-tree engine — the engine raises only past the
non-emptiness guard — but a non-empty binary mask can have an empty
erosion-and-subtract boundary, so the engine's empty-input branch is
reachable: it is reached exactly when both masks are non-empty and one
boundary point set is empty. -/
theorem c6_amended_engine_guard (dist : Q3 → Q3 → ℚ) (t r : Image3) (k : Nat)
    (h : getHausdorffEntry dist t r k = HDEntry.crash) :
    (imageSum (binaryThreshold t k) ≠ 0 ∧ imageSum (binaryThreshold r k) ≠ 0) ∧
    (boundaryPointSet (binaryThreshold t k) = [] ∨
      boundaryPointSet (binaryThreshold r k) = []) :=
  (getHausdorffEntry_crash_iff dist t r k).mp h

/-- C6 witness: the amended statement at the concrete crashing input. -/
theorem c6_amended_witness :
    (imageSum (binaryThreshold oneVoxelOne 1) ≠ 0 ∧
      imageSum (binaryThreshold oneVoxelOne 1) ≠ 0) ∧
    (boundaryPointSet (binaryThreshold oneVoxelOne 1) = [] ∨
      boundaryPointSet (binaryThreshold oneVoxelOne 1) = []) :=
  c6_amended_engine_guard distZero oneVoxelOne oneVoxelOne 1 (by decide)

/-- C7: for every binary mask, the erosion-and-subtract boundary is a
subset of the mask — an in-bounds voxel is in the boundary only if it is in
the original mask — and the boundary of an all-zero mask is empty. -/
theorem c7_boundary_subset_and_empty (I : Image3) (hbin : isBinaryMask I) :
    (∀ x < I.nx, ∀ y < I.ny, ∀ z < I.nz,
      (subtractImg I (binaryErode I)).val x y z = 1 → I.val x y z = 1) ∧
    ((∀ x < I.nx, ∀ y < I.ny, ∀ z < I.nz, I.val x y z = 0) →
      boundaryPointSet I = []) := by
  constructor
  · intro x hx y hy z hz h
    have hb := hbin x hx y hy z hz
    simp only [subtractImg] at h
    omega
  · intro hzero
    apply nonzeroIndices_eq_nil
    intro x hx y hy z hz
    simp only [subtractImg]
    rw [hzero x hx y hy z hz]
    omega

/-- C7 witness: the boundary of the concrete all-zero one-voxel mask is
empty. -/
theorem c7_witness : boundaryPointSet oneVoxelZero = [] :=
  (c7_boundary_subset_and_empty oneVoxelZero (by decide)).2 (by decide)

/-- C8: the claim that Dice of a non-empty mask against itself is 1 in
every call path fails for `get_dice_score` at labels `k ≥ 2`: on the
one-voxel array carrying label 2, the mask is non-empty, but the masked
arrays carry the value 2 and scipy's non-boolean dice formula returns the
self-similarity 2, not 1. -/
theorem c8_counterexample :
    maskCount [2] 2 ≠ 0 ∧ get_dice_score_entry [2] [2] 2 ≠ some 1 := by
  have h := gds_entry_self [2] 2 (by decide)
  refine ⟨by decide, ?_⟩
  rw [h]
  intro hc
  have : ((2 : Nat) : ℚ) = 1 := Option.some.inj hc
  norm_num at this

/-- C8 (amended): Dice of a non-empty mask against itself is 1 in the
`getDSC` path for every label; in the `get_dice_score` path the
self-similarity at a label `k` with a non-empty mask is the label value
`k` itself (so 1 exactly for label 1). -/
theorem c8_amended_self_dice :
    (∀ (t : Image3) (k : Nat), imageSum (binaryThreshold t k) ≠ 0 →
      getDSC_entry t t k = some 1) ∧
    (∀ (lab2d : List Nat) (k : Nat), maskCount lab2d k ≠ 0 →
      get_dice_score_entry lab2d lab2d k = some (k : ℚ)) :=
  ⟨fun t k h => getDSC_entry_self t k h,
   fun lab2d k h => gds_entry_self lab2d k h⟩

/-- C8 witness: the amended statement at concrete inputs. -/
theorem c8_amended_witness :
    getDSC_entry barThree barThree 1 = some 1 ∧
    get_dice_score_entry [2] [2] 2 = some ((2 : Nat) : ℚ) :=
  ⟨c8_amended_self_dice.1 barThree 1 (by decide),
   c8_amended_self_dice.2 [2] 2 (by decide)⟩

/-- C9: the array-based variants degenerate on the background label 0 for
every pair of inputs: `np.where(x == 0, x, 0)` is identically zero, so
`get_dice_score` always maps label 0 to the numeric value 0 and
`get_volumetric_symmetry` always maps label 0 to the undefined marker,
even when background voxels exist in both volumes. -/
theorem c9_background_degenerates (lab2d pred2d : List Nat) :
    (get_dice_score lab2d pred2d).lookup 0 = some (some 0) ∧
    (get_volumetric_symmetry lab2d pred2d).lookup 0 = some none := by
  have h9 : List.range 9 = [0, 1, 2, 3, 4, 5, 6, 7, 8] := by decide
  constructor
  · simp [get_dice_score, h9, List.lookup, gds_entry_label_zero lab2d pred2d]
  · simp [get_volumetric_symmetry, h9, List.lookup,
      gvs_entry_label_zero lab2d pred2d]

/-- C10: for every label `k` with `1 ≤ k ≤ 8`, the value-sum based
`get_volumetric_symmetry` agrees with the voxel-count based `getVS`
formula: both compute the spec's Volume Similarity of the two voxel
counts, the factor `k` cancelling in the array variant. -/
theorem c10_vs_variants_agree (k : Nat) (hk1 : 1 ≤ k) (hk8 : k ≤ 8) :
    (∀ lab2d pred2d : List Nat,
      get_volumetric_symmetry_entry lab2d pred2d k =
        volumeSimilaritySpec (maskCount lab2d k) (maskCount pred2d k)) ∧
    (∀ t r : Image3,
      getVS_entry t r k =
        volumeSimilaritySpec (imageSum (binaryThreshold t k))
          (imageSum (binaryThreshold r k))) :=
  ⟨fun lab2d pred2d => gvs_entry_eq_spec lab2d pred2d k hk1,
   fun t r => getVS_entry_eq_spec t r k⟩

/-- C10 witness: the agreement at a concrete pair of arrays and label 1. -/
theorem c10_witness :
    get_volumetric_symmetry_entry [1] [0, 1] 1 =
      volumeSimilaritySpec (maskCount [1] 1) (maskCount [0, 1] 1) :=
  (c10_vs_variants_agree 1 (by decide) (by decide)).1 [1] [0, 1]
